import Mathlib

/-!
Verification development for the VideoSummarizer repository.

Python strings are modelled as `List Char` (a Python string is a sequence of
code points).  Floats appearing as segment start times are modelled as `ℚ`
with exact arithmetic.  External model calls (speech recognition,
summarization, audio extraction, embedding similarity) are black boxes per
the spec and are modelled as explicit oracle parameters; everything the
repository itself computes is translated from the source.

Case mapping (`Char.toUpper`/`Char.toLower`) and the character classes
`\w`/`\s` are modelled at the ASCII level; all inputs appearing in theorems
are ASCII, where Python and this model agree.
-/

/-! ### Character classes shared by both scripts -/

/-- Python whitespace class: the characters stripped by `str.strip()`,
split on by `str.split()`, and matched by the regex class `\s` (ASCII). -/
def isSpaceChar (c : Char) : Bool :=
  c = ' ' || c = '\t' || c = '\n' || c = '\r' || c = '\x0b' || c = '\x0c'

/-- Regex word class `\w` (ASCII): letters, digits and underscore. -/
def isWordChar (c : Char) : Bool :=
  c.isAlphanum || c = '_'

/-! ### Model of `timestamps.py` -/

/-- A transcript segment: `segments[i]['start']` (float seconds) and
`segments[i]['text']`, as produced by the external speech-recognition call. -/
structure Segment where
  start : ℚ
  text : List Char
deriving DecidableEq, Inhabited

/-- A timestamp marker `{time, label}` as appended to the `timestamps` list. -/
structure Marker where
  time : List Char
  label : List Char
deriving DecidableEq, Inhabited

/-- Python `s.strip()`: drop leading and trailing whitespace. -/
def pyStrip (s : List Char) : List Char :=
  ((s.dropWhile isSpaceChar).reverse.dropWhile isSpaceChar).reverse

/-- Python `s.split(sep)` for a single-character separator `c`:
always returns at least one (possibly empty) field. -/
def splitOnChar (c : Char) : List Char → List (List Char)
  | [] => [[]]
  | x :: xs =>
    let r := splitOnChar c xs
    if x = c then [] :: r else (x :: r.headI) :: r.tail

/-- Python floor division `a // b` on floats (result is a whole float). -/
def pyFloorDiv (a b : ℚ) : ℚ := ((⌊a / b⌋ : ℤ) : ℚ)

/-- Python modulo `a % b` on floats: `a - b * (a // b)`. -/
def pyModQ (a b : ℚ) : ℚ := a - b * pyFloorDiv a b

/-- Python `int(q)`: truncation toward zero. -/
def pyIntQ (q : ℚ) : ℤ := if 0 ≤ q then ⌊q⌋ else ⌈q⌉

/-- Python `f"\x7bn:02d\x7d"`: decimal rendering zero-padded to a minimum
width of two characters. -/
def fmt02 (n : ℤ) : List Char :=
  if 0 ≤ n && n < 10 then '0' :: Nat.toDigits 10 n.toNat
  else if 0 ≤ n then Nat.toDigits 10 n.toNat
  else '-' :: Nat.toDigits 10 (-n).toNat

/-- The `time` field: `f"\x7bint(ts // 60):02d\x7d:\x7bint(ts % 60):02d\x7d"`. -/
def fmtTime (ts : ℚ) : List Char :=
  fmt02 (pyIntQ (pyFloorDiv ts 60)) ++ ':' :: fmt02 (pyIntQ (pyModQ ts 60))

/-- The `label` field: `text.strip().split('.')[0][:60] + "..."`. -/
def mkLabel (text : List Char) : List Char :=
  ((splitOnChar '.' (pyStrip text)).headI).take 60 ++ ("...".toList)

/-- The dictionary appended to the `timestamps` list for a chosen segment
(the `i == 0` branch and the `sim < threshold` branch build the same shape). -/
def mkMarker (seg : Segment) : Marker :=
  { time := fmtTime seg.start, label := mkLabel seg.text }

/-- One iteration of the `for i in range(len(embeddings))` loop: the marker
appended at index `i`, if any.  `sim` is the external
`util.cos_sim(embeddings[i], embeddings[i-1]).item()` call and `τ` is
`SIMILARITY_THRESHOLD`. -/
def emitAt {E : Type} [Inhabited E] (sim : E → E → ℚ) (τ : ℚ)
    (segments : List Segment) (embeddings : List E) (i : ℕ) : Option Marker :=
  if i = 0 then some (mkMarker (segments.getI i))
  else if sim (embeddings.getI i) (embeddings.getI (i - 1)) < τ then
    some (mkMarker (segments.getI i))
  else none

/-- The full `timestamps` list produced by the detection loop. -/
def pyTimestamps {E : Type} [Inhabited E] (sim : E → E → ℚ) (τ : ℚ)
    (segments : List Segment) (embeddings : List E) : List Marker :=
  (List.range embeddings.length).filterMap (emitAt sim τ segments embeddings)

/-! ### Model of `main.py`: the regular expressions it uses

Every pattern in `main.py` has one of five concrete shapes, so each shape
gets a dedicated matcher.  A matcher receives the character preceding the
current position (`none` at the start of the string, for the `\b`
lookaround) and the current suffix, and returns the number of characters
matched together with the replacement text.  Greedy `\w+`/`\s+` pieces
are always followed by a piece they cannot match into, so backtracking
never produces a different result and maximal-munch matching is exact;
every pattern begins and ends (before a closing `\b`) with a `\w`
character, which justifies the two boundary tests below. -/

/-- Regex class `[.,!?]` from the punctuation-spacing fixes. -/
def isPunct4 (c : Char) : Bool :=
  c = '.' || c = ',' || c = '!' || c = '?'

/-- Regex class `[.!?]` from the sentence splitter. -/
def isSentEnd (c : Char) : Bool :=
  c = '.' || c = '!' || c = '?'

/-- Regex `\b` before a pattern that starts with a `\w` character: the
preceding character (if any) must not be a word character. -/
def noWordBehind (prev : Option Char) : Bool :=
  match prev with
  | some c => !isWordChar c
  | none => true

/-- Regex `\b` after a pattern that ends with a `\w` character: the next
character (if any) must not be a word character. -/
def noWordAhead (rest : List Char) : Bool :=
  match rest with
  | c :: _ => !isWordChar c
  | [] => true

/-- Match the literal `w` against a prefix of `s`, case-insensitively when
`ci` is set (`re.IGNORECASE`); return the remaining suffix on success. -/
def matchLit (ci : Bool) : List Char → List Char → Option (List Char)
  | [], s => some s
  | _ :: _, [] => none
  | w :: ws, c :: cs =>
    if (if ci then c.toLower == w.toLower else c == w) then matchLit ci ws cs
    else none

/-- Matcher for `\bLITERAL\b → literal` (the typo-correction entries,
applied with `re.IGNORECASE`). -/
def phraseMatchAt (pat rep : List Char) (prev : Option Char) (s : List Char) :
    Option (ℕ × List Char) :=
  if noWordBehind prev then
    match matchLit true pat s with
    | some rest => if noWordAhead rest then some (pat.length, rep) else none
    | none => none
  else none

/-- Matcher for `\b(\w+)\s+\1\b → \1` (duplicate-word removal; the
backreference compares case-insensitively exactly when the pattern was
compiled with `re.IGNORECASE`). -/
def dupMatchAt (ci : Bool) (prev : Option Char) (s : List Char) :
    Option (ℕ × List Char) :=
  if noWordBehind prev then
    let g1 := s.takeWhile isWordChar
    if g1.isEmpty then none else
    let rest1 := s.drop g1.length
    let ws := rest1.takeWhile isSpaceChar
    if ws.isEmpty then none else
    match matchLit ci g1 (rest1.drop ws.length) with
    | some rest2 =>
      if noWordAhead rest2 then some (g1.length + ws.length + g1.length, g1)
      else none
    | none => none
  else none

/-- Matcher for `\b(\w+) (\w+) (?:OUT|EDIATELY)\b → \1 \2`
(applied with `re.IGNORECASE`; the alternation tries `OUT` first). -/
def sentinelMatchAt (prev : Option Char) (s : List Char) :
    Option (ℕ × List Char) :=
  if noWordBehind prev then
    let g1 := s.takeWhile isWordChar
    if g1.isEmpty then none else
    match s.drop g1.length with
    | ' ' :: rest1 =>
      let g2 := rest1.takeWhile isWordChar
      if g2.isEmpty then none else
      match rest1.drop g2.length with
      | ' ' :: rest2 =>
        let kbase := g1.length + 1 + g2.length + 1
        let tryEdiately : Option (ℕ × List Char) :=
          match matchLit true ("EDIATELY".toList) rest2 with
          | some rest3 =>
            if noWordAhead rest3 then some (kbase + 8, g1 ++ ' ' :: g2)
            else none
          | none => none
        match matchLit true ("OUT".toList) rest2 with
        | some rest3 =>
          if noWordAhead rest3 then some (kbase + 3, g1 ++ ' ' :: g2)
          else tryEdiately
        | none => tryEdiately
      | _ => none
    | _ => none
  else none

/-- Matcher for `\s+([.,!?]) → \1` (drop spaces before punctuation). -/
def spacePunctMatchAt (_prev : Option Char) (s : List Char) :
    Option (ℕ × List Char) :=
  let ws := s.takeWhile isSpaceChar
  if ws.isEmpty then none else
  match s.drop ws.length with
  | c :: _ => if isPunct4 c then some (ws.length + 1, [c]) else none
  | [] => none

/-- Matcher for `([.,!?])(\w) → \1 \2` (insert a space after
punctuation). -/
def punctWordMatchAt (_prev : Option Char) (s : List Char) :
    Option (ℕ × List Char) :=
  match s with
  | a :: b :: _ =>
    if isPunct4 a && isWordChar b then some (2, [a, ' ', b]) else none
  | _ => none

/-- `re.sub` driver: scan left to right; on a match emit the replacement
and resume after the matched text.  Every pattern in `main.py` matches at
least one character, so one unit of fuel per character suffices and the
empty-match special case of `re.sub` never arises (a zero-length match is
treated as no match to keep the scan progressing). -/
def reSubGo (m : Option Char → List Char → Option (ℕ × List Char)) :
    ℕ → Option Char → List Char → List Char
  | 0, _, _ => []
  | fuel + 1, prev, s =>
    match s with
    | [] => []
    | c :: cs =>
      match m prev s with
      | some (k, rep) =>
        if k = 0 then c :: reSubGo m fuel (some c) cs
        else rep ++ reSubGo m fuel ((s.take k).getLast?) (s.drop k)
      | none => c :: reSubGo m fuel (some c) cs

/-- `re.sub(pattern, repl, s)` for the matcher `m` of the pattern. -/
def reSub (m : Option Char → List Char → Option (ℕ × List Char))
    (s : List Char) : List Char :=
  reSubGo m s.length none s

/-- One entry of the `correction_patterns` table of `_correct_transcript`. -/
inductive SubRule where
  | phrase (pat rep : List Char)
  | twoWordsSentinel
  | dupWord
deriving DecidableEq

/-- The matcher of a table entry (the table is applied with
`flags=re.IGNORECASE`). -/
def ruleMatchAt : SubRule → Option Char → List Char → Option (ℕ × List Char)
  | .phrase pat rep => phraseMatchAt pat rep
  | .twoWordsSentinel => sentinelMatchAt
  | .dupWord => dupMatchAt true

/-- The `correction_patterns` table, in its literal insertion order
(Python dicts iterate in insertion order). -/
def correction_patterns : List SubRule :=
  [ SubRule.phrase ("PITON".toList) ("Python".toList),
    SubRule.phrase ("PYTHEN".toList) ("Python".toList),
    SubRule.phrase ("PIE CHARM".toList) ("PyCharm".toList),
    SubRule.phrase ("GUGAL".toList) ("Google".toList),
    SubRule.phrase ("VERABLES".toList) ("variables".toList),
    SubRule.phrase ("COTE EDITOR".toList) ("code editor".toList),
    SubRule.phrase ("SHONGYUHAIVIN".toList) ("showing you how to".toList),
    SubRule.phrase ("CA SENSITIVE".toList) ("case sensitive".toList),
    SubRule.phrase ("OPEN SAUCE".toList) ("open source".toList),
    SubRule.twoWordsSentinel,
    SubRule.dupWord ]

/-- The `for pattern, replacement in correction_patterns.items()` loop:
each substitution operates on the output of the previous one. -/
def applyTable (rules : List SubRule) (text : List Char) : List Char :=
  rules.foldl (fun s r => reSub (ruleMatchAt r) s) text

/-- `re.split(r'(?<=[.!?])\s+', text)` scanner: split at each maximal
whitespace run whose preceding character is in `[.!?]`.  `acc` holds the
reversed characters of the sentence being read. -/
def splitSentGo : ℕ → Option Char → List Char → List Char → List (List Char)
  | 0, _, _, acc => [acc.reverse]
  | fuel + 1, prev, s, acc =>
    match s with
    | [] => [acc.reverse]
    | c :: cs =>
      if (match prev with | some p => isSentEnd p | none => false)
          && isSpaceChar c then
        let ws := s.takeWhile isSpaceChar
        acc.reverse :: splitSentGo fuel ws.getLast? (s.drop ws.length) []
      else splitSentGo fuel (some c) cs (c :: acc)

/-- `re.split(r'(?<=[.!?])\s+', text)`. -/
def splitSentences (s : List Char) : List (List Char) :=
  splitSentGo (s.length + 1) none s []

/-- `sentence[0].upper() + sentence[1:] if sentence else ""`. -/
def capFirst : List Char → List Char
  | [] => []
  | c :: cs => c.toUpper :: cs

/-- `' '.join(sentences)`. -/
def joinSpace (l : List (List Char)) : List Char :=
  List.intercalate [' '] l

/-- `VideoSummarizer._correct_transcript`: the ordered correction table,
then the two punctuation-spacing fixes, then sentence capitalization. -/
def correct_transcript (text : List Char) : List Char :=
  let t1 := applyTable correction_patterns text
  let t2 := reSub spacePunctMatchAt t1
  let t3 := reSub punctWordMatchAt t2
  joinSpace ((splitSentences t3).map capFirst)

/-! ### Model of `main.py`: the pipeline around the external models -/

/-- Python `str.split()` (no separator): split on whitespace runs,
discarding empty fields. -/
def pySplitAux : List Char → List Char → List (List Char)
  | [], acc => if acc.isEmpty then [] else [acc.reverse]
  | c :: cs, acc =>
    if isSpaceChar c then
      if acc.isEmpty then pySplitAux cs [] else acc.reverse :: pySplitAux cs []
    else pySplitAux cs (c :: acc)

/-- Python `str.split()` with no arguments. -/
def pySplit (s : List Char) : List (List Char) :=
  pySplitAux s []

/-- `len(text.split())`. -/
def wordCount (s : List Char) : ℕ :=
  (pySplit s).length

/-- `max_len = min(130, max(50, word_count // 4))`. -/
def max_len (wc : ℕ) : ℕ := min 130 (max 50 (wc / 4))

/-- `min_len = min(30, max_len // 2)`. -/
def min_len (wc : ℕ) : ℕ := min 30 (max_len wc / 2)

/-- Python `str.capitalize()`: first character uppercased, rest lowercased. -/
def pyCapitalize : List Char → List Char
  | [] => []
  | c :: cs => c.toUpper :: cs.map Char.toLower

/-- `VideoSummarizer._clean_summary`: case-sensitive duplicate-word removal,
then `str.capitalize()`. -/
def clean_summary (summary : List Char) : List Char :=
  pyCapitalize (reSub (dupMatchAt false) summary)

/-- `VideoSummarizer._fallback_summary`: first three sentences having more
than five words. -/
def fallback_summary (text : List Char) : List Char :=
  let sentences := splitSentences text
  let key := sentences.filter (fun s => 5 < (pySplit s).length)
  joinSpace (key.take 3)

/-- The external collaborators of `main.py`, as black-box oracles.  Each
call either returns a value or raises an exception (`Except.error`).
`writeAudio` is `VideoFileClip(...).audio.write_audiofile(...)`; `asr` is
the speech-recognition pipeline; `summ` is the summarization pipeline
called with `(text, max_length, min_length)`. -/
structure ExtCalls where
  writeAudio : List Char → Except String Unit
  asr : List Char → Except String (List Char)
  summ : List Char → ℕ → ℕ → Except String (List Char)

/-- The constant `audio_path = "temp_audio.wav"` of `extract_audio`. -/
def tempAudioPath : List Char := "temp_audio.wav".toList

/-- `VideoSummarizer.extract_audio`: on success return the temporary audio
path; any exception is caught, printed and turned into `None`.  An
oracle success means the temporary audio file has been written. -/
def extract_audio (E : ExtCalls) (video_path : List Char) : Option (List Char) :=
  match E.writeAudio video_path with
  | .ok _ => some tempAudioPath
  | .error _ => none

/-- `VideoSummarizer.transcribe_audio`: run the ASR pipeline and correct
the transcript; any exception is caught, printed and turned into `None`. -/
def transcribe_audio (E : ExtCalls) (audio_path : List Char) : Option (List Char) :=
  match E.asr audio_path with
  | .ok raw => some (correct_transcript raw)
  | .error _ => none

/-- `VideoSummarizer.summarize_text`.  The second component records
whether the summarization model was invoked: an exception from the model
is caught and answered with `_fallback_summary`, not with `None`. -/
def summarize_text (E : ExtCalls) (text : List Char) : List Char × Bool :=
  if text.isEmpty || wordCount text < 50 then (text, false)
  else
    let wc := wordCount text
    match E.summ text (max_len wc) (min_len wc) with
    | .ok s => (clean_summary s, true)
    | .error _ => (fallback_summary text, true)

/-- The dictionary returned by `summarize_video` on success. -/
structure RunResult where
  transcription : List Char
  summary : List Char
deriving DecidableEq

/-- `VideoSummarizer.summarize_video`.  The second component tracks whether
the temporary audio file still exists when the function returns (it is
created exactly when `write_audiofile` succeeds, and `os.remove` runs
unconditionally right after `transcribe_audio`). -/
def summarize_video (E : ExtCalls) (video_path : List Char) :
    Option RunResult × Bool :=
  match extract_audio E video_path with
  | none => (none, false)
  | some audio_file =>
    if audio_file.isEmpty then (none, true)
    else
      match transcribe_audio E audio_file with
      | none => (none, false)
      | some transcription =>
        if transcription.isEmpty then (none, false)
        else (some ⟨transcription, (summarize_text E transcription).1⟩, false)

/-! ### Spec-side definitions used for refinement comparisons -/

/-- The label formula exactly as the spec sentence states it: the segment
text (with no whitespace stripping) split on `.`, first field, truncated
to 60 characters, ellipsis appended.  Compared against `mkLabel`. -/
def specLabel (text : List Char) : List Char :=
  ((splitOnChar '.' text).headI).take 60 ++ ("...".toList)

/-! ### Helper lemmas -/

lemma splitOnChar_headI (c : Char) (s : List Char) :
    (splitOnChar c s).headI = s.takeWhile (fun y => y != c) := by
  induction s with
  | nil => rfl
  | cons x xs ih =>
    by_cases hx : x = c
    · simp [splitOnChar, hx, List.takeWhile_cons]
    · simp [splitOnChar, hx, List.takeWhile_cons, ih]

lemma pyModQ_nonneg (ts : ℚ) : 0 ≤ pyModQ ts 60 := by
  have h : ((⌊ts / 60⌋ : ℤ) : ℚ) ≤ ts / 60 := Int.floor_le (ts / 60)
  unfold pyModQ pyFloorDiv
  linarith

lemma pyModQ_lt (ts : ℚ) : pyModQ ts 60 < 60 := by
  have h : ts / 60 < (⌊ts / 60⌋ : ℚ) + 1 := Int.lt_floor_add_one (ts / 60)
  unfold pyModQ pyFloorDiv
  linarith

lemma pyIntQ_floorDiv (ts : ℚ) (h : 0 ≤ ts) :
    pyIntQ (pyFloorDiv ts 60) = ⌊ts / 60⌋ := by
  have h0 : (0 : ℤ) ≤ ⌊ts / 60⌋ :=
    Int.le_floor.mpr (by positivity)
  have h1 : (0 : ℚ) ≤ ((⌊ts / 60⌋ : ℤ) : ℚ) := by exact_mod_cast h0
  unfold pyIntQ pyFloorDiv
  rw [if_pos h1, Int.floor_intCast]

lemma pyIntQ_mod (ts : ℚ) : pyIntQ (pyModQ ts 60) = ⌊pyModQ ts 60⌋ := by
  unfold pyIntQ
  rw [if_pos (pyModQ_nonneg ts)]

lemma fmt02_length_two (n : ℤ) (h0 : 0 ≤ n) (h1 : n < 100) :
    (fmt02 n).length = 2 := by
  have hn : n = ((n.toNat : ℤ)) := (Int.toNat_of_nonneg h0).symm
  have hb : n.toNat < 100 := by omega
  rw [hn]
  exact (by decide : ∀ m : Fin 100, (fmt02 ((m : ℕ) : ℤ)).length = 2) ⟨n.toNat, hb⟩

/-! ### Claims about the segment-boundary detector -/

/-- Claim C1: for N ≥ 1 segments with embeddings, the detector emits
between 1 and N markers, and the first emitted marker corresponds to
segment 0. -/
theorem C1_marker_count_bounds {E : Type} [Inhabited E] (sim : E → E → ℚ)
    (τ : ℚ) (segments : List Segment) (embeddings : List E)
    (hlen : embeddings.length = segments.length) (hpos : 1 ≤ segments.length) :
    1 ≤ (pyTimestamps sim τ segments embeddings).length
    ∧ (pyTimestamps sim τ segments embeddings).length ≤ segments.length
    ∧ (pyTimestamps sim τ segments embeddings).headI
        = mkMarker (segments.getI 0) := by
  obtain ⟨m, hm⟩ : ∃ m, embeddings.length = m + 1 :=
    ⟨segments.length - 1, by omega⟩
  have hcons : pyTimestamps sim τ segments embeddings
      = mkMarker (segments.getI 0)
        :: ((List.range m).map Nat.succ).filterMap
            (emitAt sim τ segments embeddings) := by
    rw [pyTimestamps, hm, List.range_succ_eq_map, List.filterMap_cons]
    simp [emitAt]
  refine ⟨?_, ?_, ?_⟩
  · rw [hcons]; simp
  · have h := List.length_filterMap_le
      (emitAt sim τ segments embeddings) (List.range embeddings.length)
    rw [pyTimestamps]
    rw [List.length_range] at h
    omega
  · rw [hcons]; rfl

/-- Claim C2: for adjacent segments i-1, i (i ≥ 1), a marker is emitted at
index i exactly when the similarity of embeddings i and i-1 is strictly
below the threshold; when the similarity is ≥ τ no marker is emitted. -/
theorem C2_threshold_decision {E : Type} [Inhabited E] (sim : E → E → ℚ)
    (τ : ℚ) (segments : List Segment) (embeddings : List E) (i : ℕ)
    (h1 : 1 ≤ i) (_h2 : i < embeddings.length) :
    (emitAt sim τ segments embeddings i = some (mkMarker (segments.getI i))
      ↔ sim (embeddings.getI i) (embeddings.getI (i - 1)) < τ)
    ∧ (τ ≤ sim (embeddings.getI i) (embeddings.getI (i - 1))
        → emitAt sim τ segments embeddings i = none)
    ∧ pyTimestamps sim τ segments embeddings
        = (List.range embeddings.length).filterMap
            (emitAt sim τ segments embeddings) := by
  have hi : i ≠ 0 := by omega
  refine ⟨?_, ?_, rfl⟩
  · by_cases hs : sim (embeddings.getI i) (embeddings.getI (i - 1)) < τ
    · simp [emitAt, hi, hs]
    · simp [emitAt, hi, hs]
  · intro hge
    simp [emitAt, hi, not_lt.mpr hge]

/-- Claim C7: the detector is a deterministic pure function of its
segment/embedding input: two runs on equal inputs yield identical
marker lists. -/
theorem C7_detector_deterministic {E : Type} [Inhabited E] (sim : E → E → ℚ)
    (τ : ℚ) (s₁ s₂ : List Segment) (e₁ e₂ : List E)
    (hs : s₁ = s₂) (he : e₁ = e₂) :
    pyTimestamps sim τ s₁ e₁ = pyTimestamps sim τ s₂ e₂ := by
  rw [hs, he]

theorem C1_marker_count_bounds_witness :
    1 ≤ (pyTimestamps (fun a b : ℚ => a * b) (65/100)
          [⟨0, ("Hello".toList)⟩] [(1:ℚ)]).length
    ∧ (pyTimestamps (fun a b : ℚ => a * b) (65/100)
          [⟨0, ("Hello".toList)⟩] [(1:ℚ)]).length
        ≤ ([⟨0, ("Hello".toList)⟩] : List Segment).length
    ∧ (pyTimestamps (fun a b : ℚ => a * b) (65/100)
          [⟨0, ("Hello".toList)⟩] [(1:ℚ)]).headI
        = mkMarker (([⟨0, ("Hello".toList)⟩] : List Segment).getI 0) :=
  C1_marker_count_bounds (fun a b : ℚ => a * b) (65/100)
    [⟨0, ("Hello".toList)⟩] [(1:ℚ)] rfl (by norm_num)

theorem C2_threshold_decision_witness :
    emitAt (fun a b : ℚ => a * b) (65/100)
      [⟨0, []⟩, ⟨40, []⟩] [(0:ℚ), 1] 1
      = some (mkMarker (([⟨0, []⟩, ⟨40, []⟩] : List Segment).getI 1)) := by
  refine (C2_threshold_decision (fun a b : ℚ => a * b) (65/100)
    [⟨0, []⟩, ⟨40, []⟩] [(0:ℚ), 1] 1 (by norm_num) (by norm_num)).1.mpr ?_
  show ((1:ℚ) * 0) < 65/100
  norm_num

theorem C7_detector_deterministic_witness :
    pyTimestamps (fun a b : ℚ => a * b) (65/100) [⟨0, []⟩] [(1:ℚ)]
      = pyTimestamps (fun a b : ℚ => a * b) (65/100) [⟨0, []⟩] [(1:ℚ)] :=
  C7_detector_deterministic (fun a b : ℚ => a * b) (65/100)
    [⟨0, []⟩] [⟨0, []⟩] [(1:ℚ)] [(1:ℚ)] rfl rfl

/-! ### Claims about marker labels and times -/

/-- Claim C3, counterexample: the implemented label strips whitespace
first, so for the segment text `" hi"` the label is `"hi..."` and not the
`" hi..."` demanded by the claim read literally. -/
theorem C3_label_counterexample :
    (mkMarker ⟨0, (" hi".toList)⟩).label ≠ specLabel (" hi".toList) := by
  decide

/-- Claim C3 (amended): the label is the whitespace-stripped segment text
truncated to the first `.`-delimited sentence and to at most 60
characters, with the three-character ellipsis appended; the kept prefix
is exactly 60 characters when the first sentence is longer, and empty
text yields just the ellipsis. -/
theorem C3_label_truncation (text : List Char) :
    mkLabel text
      = ((pyStrip text).takeWhile (fun y => y != '.')).take 60 ++ ("...".toList)
    ∧ (mkLabel text).length
      = min 60 ((pyStrip text).takeWhile (fun y => y != '.')).length + 3
    ∧ (text = [] → mkLabel text = ("...".toList)) := by
  have h1 : mkLabel text
      = ((pyStrip text).takeWhile (fun y => y != '.')).take 60
        ++ ("...".toList) := by
    rw [mkLabel, splitOnChar_headI]
  refine ⟨h1, ?_, ?_⟩
  · rw [h1, List.length_append, List.length_take]
    rfl
  · intro h
    rw [h]
    rfl

theorem C3_label_truncation_witness :
    mkLabel [] = ("...".toList) :=
  (C3_label_truncation []).2.2 rfl

/-- Claim C4, counterexample: at `start_time = 6000` seconds the minutes
field is `100`, rendered with three digits, so the `time` string is not a
five-character zero-padded `"MM:SS"` form. -/
theorem C4_time_counterexample :
    (0:ℚ) ≤ 6000
    ∧ (mkMarker ⟨6000, []⟩).time = ("100:00".toList)
    ∧ ((mkMarker ⟨6000, []⟩).time).length ≠ 5 := by
  have h1 : (⌊(6000:ℚ)/60⌋ : ℤ) = 100 := by norm_num
  have ht : (mkMarker ⟨6000, []⟩).time = ("100:00".toList) := by
    simp [mkMarker, fmtTime, pyFloorDiv, pyModQ, pyIntQ, h1]
    norm_num
    decide
  exact ⟨by norm_num, ht, by rw [ht]; decide⟩

/-- Claim C4 (amended): for a non-negative start time the `time` field is
minutes and seconds joined by `:`, with minutes = ⌊start/60⌋ and seconds
= ⌊start mod 60⌋, each zero-padded to a minimum width of two digits; the
seconds field always has exactly two digits, and the minutes field has
exactly two digits whenever minutes < 100. -/
theorem C4_time_format (seg : Segment) (h : 0 ≤ seg.start) :
    (mkMarker seg).time
      = fmt02 ⌊seg.start / 60⌋ ++ ':' :: fmt02 ⌊pyModQ seg.start 60⌋
    ∧ (fmt02 ⌊pyModQ seg.start 60⌋).length = 2
    ∧ (⌊seg.start / 60⌋ < 100 → (fmt02 ⌊seg.start / 60⌋).length = 2) := by
  have hsec0 : (0 : ℤ) ≤ ⌊pyModQ seg.start 60⌋ :=
    Int.le_floor.mpr (by exact_mod_cast pyModQ_nonneg seg.start)
  have hsec1 : ⌊pyModQ seg.start 60⌋ < 60 :=
    Int.floor_lt.mpr (by exact_mod_cast pyModQ_lt seg.start)
  refine ⟨?_, ?_, ?_⟩
  · show fmtTime seg.start = _
    rw [fmtTime, pyIntQ_floorDiv seg.start h, pyIntQ_mod]
  · exact fmt02_length_two _ hsec0 (by omega)
  · intro hlt
    have hmin0 : (0 : ℤ) ≤ ⌊seg.start / 60⌋ :=
      Int.le_floor.mpr (by positivity)
    exact fmt02_length_two _ hmin0 hlt

theorem C4_time_format_witness :
    (mkMarker ⟨90, []⟩).time
      = fmt02 ⌊(90:ℚ) / 60⌋ ++ ':' :: fmt02 ⌊pyModQ 90 60⌋
    ∧ (fmt02 ⌊pyModQ (90:ℚ) 60⌋).length = 2
    ∧ (fmt02 ⌊(90:ℚ) / 60⌋).length = 2 := by
  obtain ⟨h1, h2, h3⟩ := C4_time_format ⟨90, []⟩ (by norm_num)
  exact ⟨h1, h2, h3 (by norm_num)⟩

/-! ### Claims about `_correct_transcript` -/

/-- Claim C6: transcript correction equals the left-to-right fold of the
substitution table in its listed order, each substitution operating on
the previous output, followed by the punctuation-spacing fixes and
sentence capitalization; and reordering the table can change the output
(witnessed by moving the duplicate-word rule ahead of the `PIE CHARM`
rule on the input `"PIE PIE CHARM"`). -/
theorem C6_ordered_correction_table :
    (∀ (t : List Char) (rules : List SubRule) (r : SubRule),
      applyTable (rules ++ [r]) t = reSub (ruleMatchAt r) (applyTable rules t))
    ∧ (∀ t : List Char, correct_transcript t
        = joinSpace ((splitSentences
            (reSub punctWordMatchAt
              (reSub spacePunctMatchAt
                (applyTable correction_patterns t)))).map capFirst))
    ∧ ∃ alt : List SubRule, List.Perm alt correction_patterns
        ∧ applyTable alt ("PIE PIE CHARM".toList)
            ≠ applyTable correction_patterns ("PIE PIE CHARM".toList) := by
  refine ⟨?_, fun t => rfl,
    ⟨SubRule.dupWord :: correction_patterns.dropLast, ?_, by decide⟩⟩
  · intro t rules r
    simp [applyTable, List.foldl_append]
  · have he : correction_patterns
        = correction_patterns.dropLast ++ [SubRule.dupWord] := rfl
    rw [he]
    exact (List.perm_append_singleton _ _).symm

/-! ### Claims about the `summarize_video` pipeline -/

/-- A transcript of exactly fifty distinct words (so the summarization
guard `len(text.split()) < 50` does not fire and no correction pattern
rewrites it apart from capitalizing the first word). -/
def fiftyWords : List Char :=
  ("a1 a2 a3 a4 a5 a6 a7 a8 a9 a10 a11 a12 a13 a14 a15 a16 a17 a18 a19 a20 a21 a22 a23 a24 a25 a26 a27 a28 a29 a30 a31 a32 a33 a34 a35 a36 a37 a38 a39 a40 a41 a42 a43 a44 a45 a46 a47 a48 a49 a50".toList)

/-- Oracle run where audio extraction raises an exception. -/
def failingExtractOracle : ExtCalls where
  writeAudio := fun _ => Except.error ("boom")
  asr := fun _ => Except.error ("boom")
  summ := fun _ _ _ => Except.error ("boom")

/-- Oracle run where extraction succeeds and transcription raises. -/
def failingAsrOracle : ExtCalls where
  writeAudio := fun _ => Except.ok ()
  asr := fun _ => Except.error ("boom")
  summ := fun _ _ _ => Except.error ("boom")

/-- Oracle run where extraction and transcription succeed and every call
to the summarization model raises an exception. -/
def failingSummOracle : ExtCalls where
  writeAudio := fun _ => Except.ok ()
  asr := fun _ => Except.ok fiftyWords
  summ := fun _ _ _ => Except.error ("model crash")

/-- Oracle run where every external call succeeds. -/
def okSummOracle : ExtCalls where
  writeAudio := fun _ => Except.ok ()
  asr := fun _ => Except.ok fiftyWords
  summ := fun _ _ _ => Except.ok ("a fine summary".toList)

set_option maxRecDepth 10000 in
/-- Claim C5, counterexample: with a fifty-word transcript, the
summarization call raises, yet `summarize_video` does not return `None`:
`summarize_text` catches the exception and answers with the extractive
fallback summary, so the claim that every caught exception propagates as
an absent result is false for the summarization step. -/
theorem C5_summarization_error_counterexample :
    failingSummOracle.summ (correct_transcript fiftyWords)
        (max_len (wordCount (correct_transcript fiftyWords)))
        (min_len (wordCount (correct_transcript fiftyWords)))
      = Except.error ("model crash")
    ∧ (summarize_text failingSummOracle (correct_transcript fiftyWords)).2
      = true
    ∧ (summarize_video failingSummOracle ("video.mp4".toList)).1 ≠ none := by
  refine ⟨rfl, by decide, by decide⟩

/-- Claim C5 (amended): an exception during audio extraction or during
transcription is caught, logged, and short-circuits the run with a `None`
result; an exception during summarization is also caught and logged, but
`summarize_text` answers it with `_fallback_summary`, so `summarize_video`
still returns a result dictionary containing the transcription and the
fallback summary. -/
theorem C5_exception_propagation (E : ExtCalls) (v : List Char) :
    ((∃ e, E.writeAudio v = Except.error e) → summarize_video E v = (none, false))
    ∧ ((∃ u, E.writeAudio v = Except.ok u)
        → (∃ e, E.asr tempAudioPath = Except.error e)
        → summarize_video E v = (none, false))
    ∧ (∀ raw e, E.writeAudio v = Except.ok ()
        → E.asr tempAudioPath = Except.ok raw
        → correct_transcript raw ≠ []
        → 50 ≤ wordCount (correct_transcript raw)
        → E.summ (correct_transcript raw)
            (max_len (wordCount (correct_transcript raw)))
            (min_len (wordCount (correct_transcript raw)))
            = Except.error e
        → (summarize_video E v).1
            = some ⟨correct_transcript raw,
                    fallback_summary (correct_transcript raw)⟩) := by
  have hne : tempAudioPath.isEmpty = false := rfl
  refine ⟨?_, ?_, ?_⟩
  · rintro ⟨e, he⟩
    simp [summarize_video, extract_audio, he]
  · rintro ⟨u, hu⟩ ⟨e, he⟩
    simp [summarize_video, extract_audio, transcribe_audio, hu, he, hne]
  · intro raw e h1 h2 h3 h4 h5
    have h6 : (correct_transcript raw).isEmpty = false := by
      cases hc : correct_transcript raw with
      | nil => exact absurd hc h3
      | cons a l => rfl
    have h7 : ¬ (wordCount (correct_transcript raw) < 50) := Nat.not_lt.mpr h4
    simp [summarize_video, extract_audio, transcribe_audio, h1, h2, hne, h6,
      summarize_text, h7, h5]

set_option maxRecDepth 10000 in
theorem C5_exception_propagation_witness :
    summarize_video failingExtractOracle ("video.mp4".toList) = (none, false)
    ∧ summarize_video failingAsrOracle ("video.mp4".toList) = (none, false)
    ∧ (summarize_video failingSummOracle ("video.mp4".toList)).1
        = some ⟨correct_transcript fiftyWords,
                fallback_summary (correct_transcript fiftyWords)⟩ := by
  refine ⟨(C5_exception_propagation failingExtractOracle _).1 ⟨("boom"), rfl⟩,
    (C5_exception_propagation failingAsrOracle _).2.1 ⟨(), rfl⟩ ⟨("boom"), rfl⟩,
    (C5_exception_propagation failingSummOracle _).2.2 fiftyWords
      ("model crash") rfl rfl (by decide) (by decide) rfl⟩

/-- Claim C8: no matter how the external calls behave, the temporary
extracted-audio file does not exist when `summarize_video` returns: it is
created exactly when `write_audiofile` succeeds, and `os.remove` runs
unconditionally right after `transcribe_audio`, before either the `None`
short-circuit or the successful return. -/
theorem C8_temp_audio_removed (E : ExtCalls) (v : List Char) :
    (summarize_video E v).2 = false := by
  have hne : tempAudioPath.isEmpty = false := rfl
  rcases hw : E.writeAudio v with e | u
  · simp [summarize_video, extract_audio, hw]
  · rcases ha : E.asr tempAudioPath with e | raw
    · simp [summarize_video, extract_audio, transcribe_audio, hw, ha, hne]
    · by_cases h : (correct_transcript raw).isEmpty = true
      · simp [summarize_video, extract_audio, transcribe_audio, hw, ha, hne, h]
      · simp [summarize_video, extract_audio, transcribe_audio, hw, ha, hne, h]

/-- Claim C9: `summarize_text` returns its input unchanged (and does not
invoke the summarization model) when the text is empty or has fewer than
fifty whitespace-separated words; whenever the model is invoked the text
has at least fifty words. -/
theorem C9_short_text_identity (E : ExtCalls) (text : List Char) :
    ((text = [] ∨ wordCount text < 50) → summarize_text E text = (text, false))
    ∧ ((summarize_text E text).2 = true → 50 ≤ wordCount text) := by
  constructor
  · intro h
    have hc : (text.isEmpty || decide (wordCount text < 50)) = true := by
      rcases h with h | h
      · subst h; rfl
      · simp [h]
    simp [summarize_text, hc]
  · intro h
    by_contra hn
    push_neg at hn
    have hc : (text.isEmpty || decide (wordCount text < 50)) = true := by
      simp [hn]
    rw [summarize_text, if_pos hc] at h
    exact absurd h (by simp)

set_option maxRecDepth 10000 in
theorem C9_short_text_identity_witness :
    summarize_text okSummOracle ("hi there".toList)
      = (("hi there".toList), false)
    ∧ 50 ≤ wordCount fiftyWords :=
  ⟨(C9_short_text_identity okSummOracle ("hi there".toList)).1
      (Or.inr (by decide)),
   (C9_short_text_identity okSummOracle fiftyWords).2 (by decide)⟩

/-- Claim C10: whenever `summarize_text` invokes the summarization model,
the computed length window satisfies 50 ≤ max_len ≤ 130, min_len ≤ 30 and
min_len ≤ max_len. -/
theorem C10_model_length_window (E : ExtCalls) (text : List Char)
    (_h : (summarize_text E text).2 = true) :
    50 ≤ max_len (wordCount text) ∧ max_len (wordCount text) ≤ 130
    ∧ min_len (wordCount text) ≤ 30
    ∧ min_len (wordCount text) ≤ max_len (wordCount text) := by
  unfold max_len min_len
  omega

set_option maxRecDepth 10000 in
theorem C10_model_length_window_witness :
    50 ≤ max_len (wordCount fiftyWords) ∧ max_len (wordCount fiftyWords) ≤ 130
    ∧ min_len (wordCount fiftyWords) ≤ 30
    ∧ min_len (wordCount fiftyWords) ≤ max_len (wordCount fiftyWords) :=
  C10_model_length_window okSummOracle fiftyWords (by decide)
